import Mathlib

/-!
Verification of the highlight-reel editor engine of this repository.

The visible source is the UI layer (`Highlighter.tsx`), the highlighter
constants (`constants.ts`) and the alert-box settings module
(`useAlertBox.tsx`).  The engine behind `HighlighterService`
(clip store, trim/order resolver, transition compositor, audio mixer,
export pipeline, error surface) is driven through an opaque service
boundary; where its code is not in the visible source it is modelled
from the specification, and each such definition is marked
`Modelled from the spec:`.
-/

namespace Highlighter

/-! ## Data model (spec section 3) -/

/-- Load state of a clip: `pending | loading | ready | failed`. -/
inductive ClipState where
  | pending
  | loading
  | ready
  | failed
  deriving DecidableEq

/-- A Clip: identity is the source file path; attributes are duration,
trim-in, trim-out, load state and an optional sprite-sheet reference. -/
structure Clip where
  path : String
  duration : ℚ
  trimIn : ℚ
  trimOut : ℚ
  state : ClipState
  sprite : Option String
  deriving DecidableEq

/-- The Clip Store: the collection of clips plus the extrinsic ordering,
kept as a separate ordered list of clip identities (paths). -/
structure ClipStore where
  clips : List Clip
  order : List String
  deriving DecidableEq

/-- Transition Config: a type from a fixed enumerated set plus a bounded
duration, applied globally between every adjacent pair of clips. -/
structure TransitionConfig where
  kind : String
  duration : ℚ
  deriving DecidableEq

/-- Audio Config: enabled flag, source file path, volume. -/
structure AudioConfig where
  musicEnabled : Bool
  musicPath : String
  musicVolume : ℚ
  deriving DecidableEq

/-- Export Job status: `idle | rendering | complete | failed | cancelled`. -/
inductive ExportStatus where
  | idle
  | rendering
  | complete
  | failed
  | cancelled
  deriving DecidableEq

/-- An Export Job: transient entity created per export invocation. -/
structure ExportJob where
  status : ExportStatus
  progress : ℚ
  outputPath : String
  deriving DecidableEq

/-! ## sanitizeValue (from `useAlertBox.tsx`, lines 140-151)

```
sanitizeValue(value: any, fieldMetadata: Record<string, any>) {
  if (fieldMetadata) {
    // fix Min and Max values
    if (fieldMetadata.min !== undefined && value < fieldMetadata.min) {
      return fieldMetadata.min;
    }
    if (fieldMetadata.max !== undefined && value > fieldMetadata.max) {
      return fieldMetadata.max;
    }
  }
  return value;
}
```
-/

/-- Field metadata as used by `sanitizeValue`: optional `min` and `max`
bounds (`undefined` is `none`). -/
structure FieldMetadata where
  min : Option ℚ
  max : Option ℚ
  deriving DecidableEq

/-- Function `sanitizeValue` from `useAlertBox.tsx`: when metadata is present, a
value below a defined `min` becomes `min` (early return), otherwise a
value above a defined `max` becomes `max`, otherwise the value is
returned unchanged. -/
def sanitizeValue (value : ℚ) (fieldMetadata : Option FieldMetadata) : ℚ :=
  match fieldMetadata with
  | none => value
  | some md =>
    match md.min with
    | some lo =>
      if value < lo then lo
      else
        match md.max with
        | some hi => if hi < value then hi else value
        | none => value
    | none =>
      match md.max with
      | some hi => if hi < value then hi else value
      | none => value

/-! ## Ingest extension filtering (from `constants.ts` line 31 and
`Highlighter.tsx` `onDrop`, lines 215-231) -/

/-- Constant `SUPPORTED_FILE_TYPES` from `constants.ts`. -/
def SUPPORTED_FILE_TYPES : List String := [ "mp4", "mov", "mkv" ]

/-- The `extensions` list built in `onDrop`:
`SUPPORTED_FILE_TYPES.map(e => '.' + e)`. -/
def dropExtensions : List String :=
  SUPPORTED_FILE_TYPES.map (fun e => "." ++ e)

/-- The basename of a path: the suffix after the last path separator
(both separators, as Node's `path` module on win32). -/
def pathBasename (p : String) : List Char :=
  ((p.toList.reverse.takeWhile (fun c => !(decide (c = '/') || decide (c = '\\'))))).reverse

/-- Index of the last dot in a character list, if any. -/
def lastDotIdx (cs : List Char) : Option Nat :=
  match cs.reverse.findIdx? (fun c => decide (c = '.')) with
  | none => none
  | some j => some (cs.length - 1 - j)

/-- Extension `path.parse(f).ext` as computed by Node: the basename's suffix from
its last dot, unless there is no dot, the dot is the leading character
(dotfiles have no extension), or the basename is exactly `..`. -/
def parseExt (p : String) : String :=
  let base := pathBasename p
  if base = ['.', '.'] then ""
  else
    match lastDotIdx base with
    | none => ""
    | some 0 => ""
    | some i => String.mk (base.drop i)

/-- The extension filter applied in `onDrop`:
`files.filter(f => extensions.includes(path.parse(f).ext))`. -/
def onDropFilter (files : List String) : List String :=
  files.filter (fun f => decide (parseExt f ∈ dropExtensions))

/-- The argument `onDrop` passes to `addClips`: the filtered list when it
is non-empty, and no call at all otherwise
(`if (filtered.length) { addClips(filtered) }`). -/
def onDropAddClipsArg (files : List String) : Option (List String) :=
  let filtered := onDropFilter files
  if filtered.isEmpty then none else some filtered

/-! ## Bounded-setting clamping -/

/-- Clamp a value into `[lo, hi]`, in the shape of `sanitizeValue`:
too-small values become `lo`, too-large values become `hi`. -/
def clampQ (lo hi v : ℚ) : ℚ :=
  if v < lo then lo else if hi < v then hi else v

/-! ## Clip Store operations (spec section 4.1)

`HighlighterService`'s store operations are behind the service boundary;
they are modelled from the spec. -/

/-- A freshly ingested clip in `pending` state with full trim range
unknown until probed; duration is probed later, so it starts at 0. -/
def newClip (p : String) : Clip :=
  { path := p, duration := 0, trimIn := 0, trimOut := 0,
    state := ClipState.pending, sprite := none }

/-- Modelled from the spec: `addClips` creates a Clip in `pending` state
for each path; duplicate paths (already in the store) are ignored
(idempotent add).  This single-path step adds one path. -/
def ClipStore.addClip (s : ClipStore) (p : String) : ClipStore :=
  if s.clips.any (fun c => decide (c.path = p)) then s
  else { clips := s.clips ++ [newClip p], order := s.order ++ [p] }

/-- Modelled from the spec: `addClips(paths)` ingests each path in order,
skipping duplicates. -/
def ClipStore.addClips (s : ClipStore) (ps : List String) : ClipStore :=
  ps.foldl ClipStore.addClip s

/-- Modelled from the spec: `setOrder(newOrderedIds)` replaces the
ordering atomically, filtering out ids not present in the store; it is a
pure reordering and leaves every clip (and hence every sprite
reference) untouched. -/
def ClipStore.setOrder (s : ClipStore) (ids : List String) : ClipStore :=
  { s with order := ids.filter (fun id => decide (id ∈ s.clips.map Clip.path)) }

/-- Modelled from the spec: `setClipTrim(path, in, out)` clamps
out-of-range input to the clip's metadata bounds rather than failing, so
the stored trim satisfies `0 ≤ in < out ≤ duration`; a requested range
that is empty even after clamping falls back to the full clip range. -/
def ClipStore.setClipTrim (s : ClipStore) (p : String) (tin tout : ℚ) : ClipStore :=
  { s with
    clips := s.clips.map (fun c =>
      if decide (c.path = p) then
        let i := clampQ 0 c.duration tin
        let o := clampQ 0 c.duration tout
        if i < o then { c with trimIn := i, trimOut := o }
        else { c with trimIn := 0, trimOut := c.duration }
      else c) }

/-- Modelled from the spec: `removeClip(path)` removes the clip and its
order entry; no-op if absent. -/
def ClipStore.removeClip (s : ClipStore) (p : String) : ClipStore :=
  { clips := s.clips.filter (fun c => !(decide (c.path = p))),
    order := s.order.filter (fun id => !(decide (id = p))) }

/-! ## Configuration surface (bounds from the `SliderInput`s in
`Highlighter.tsx` `getControls`; clamping modelled from the spec:
"all validated/clamped, not hard failures") -/

/-- Transition-duration slider lower bound (`min={0.5}`). -/
def TRANSITION_DURATION_MIN : ℚ := 1 / 2

/-- Transition-duration slider upper bound (`max={5}`). -/
def TRANSITION_DURATION_MAX : ℚ := 5

/-- Music-volume slider lower bound (`min={0}`). -/
def MUSIC_VOLUME_MIN : ℚ := 0

/-- Music-volume slider upper bound (`max={100}`). -/
def MUSIC_VOLUME_MAX : ℚ := 100

/-- Modelled from the spec: `setTransition({duration})` accepts a
duration clamped into `[0.5, 5]` seconds. -/
def setTransitionDuration (t : TransitionConfig) (d : ℚ) : TransitionConfig :=
  { t with duration := clampQ TRANSITION_DURATION_MIN TRANSITION_DURATION_MAX d }

/-- Modelled from the spec: `setAudio({musicVolume})` accepts a volume
clamped into `[0, 100]`. -/
def setMusicVolume (a : AudioConfig) (v : ℚ) : AudioConfig :=
  { a with musicVolume := clampQ MUSIC_VOLUME_MIN MUSIC_VOLUME_MAX v }

/-! ## Transition Compositor and Audio Mixer (spec sections 4.4, 4.5)

Modelled from the spec, with the overlap (cross-fade) policy fixed by
the spec's worked example `5+3-1=7`. -/

/-- The effective (trimmed) length of a clip. -/
def effectiveLength (c : Clip) : ℚ := c.trimOut - c.trimIn

/-- A render segment: a trimmed clip body or an inter-clip transition. -/
inductive Segment where
  | clip (c : Clip)
  | transition (d : ℚ)
  deriving DecidableEq

/-- Modelled from the spec: the Transition Compositor expands N render
units into N clip segments with (N-1) transition segments between
adjacent clips; a single clip (N=1) skips compositing and passes
through as-is. -/
def composeSegments : List Clip → ℚ → List Segment
  | [], _ => []
  | [c], _ => [Segment.clip c]
  | c :: c2 :: rest, d =>
      Segment.clip c :: Segment.transition d :: composeSegments (c2 :: rest) d

/-- Modelled from the spec: duration contribution of one segment under
the overlap (cross-fade) policy fixed by the spec's worked example —
each transition overlaps its neighbours, shortening the total by its
duration. -/
def segmentDuration : Segment → ℚ
  | Segment.clip c => effectiveLength c
  | Segment.transition d => -d

/-- Total duration of a composed timeline. -/
def timelineDuration (segs : List Segment) : ℚ :=
  (segs.map segmentDuration).sum

/-- Modelled from the spec: the Audio Mixer fits (loops or trims) the
background track to the composed video duration and overlays it at the
configured volume; it never alters the video length.  Result: output
video duration, plus the fitted audio bed (duration, volume) when
enabled. -/
def mixAudio (a : AudioConfig) (videoLen : ℚ) : ℚ × Option (ℚ × ℚ) :=
  (videoLen, if a.musicEnabled then some (videoLen, a.musicVolume) else none)

/-- Modelled from the spec: total duration of the exported output for a
list of ready render units, a transition duration and an audio config. -/
def outputDuration (clips : List Clip) (d : ℚ) (a : AudioConfig) : ℚ :=
  (mixAudio a (timelineDuration (composeSegments clips d))).1

/-! ## Export engine and error surface (spec sections 3, 4.6)

Modelled from the spec: at most one active Export Job; a single-slot
error surface. -/

/-- The engine state driven by the UI: clip store, configs, export jobs,
the set of existing output files, and the single error slot. -/
structure Engine where
  store : ClipStore
  transition : TransitionConfig
  audio : AudioConfig
  jobs : List ExportJob
  outputs : List String
  error : Option String

/-- The engine's initial state: nothing ingested, defaults configured,
no jobs, no outputs, no error. -/
def Engine.init : Engine :=
  { store := { clips := [], order := [] },
    transition := { kind := "fade", duration := 1 },
    audio := { musicEnabled := false, musicPath := "", musicVolume := 50 },
    jobs := [], outputs := [], error := none }

/-- Modelled from the spec: `export(outputPath)` is rejected (the state
is unchanged) while an Export Job is `rendering`; otherwise it creates a
fresh `rendering` job. -/
def Engine.startExport (s : Engine) (out : String) : Engine :=
  if s.jobs.any (fun j => decide (j.status = ExportStatus.rendering)) then s
  else { s with jobs := { status := ExportStatus.rendering, progress := 0,
                          outputPath := out } :: s.jobs }

/-- Move every `rendering` job to the given terminal status. -/
def settleJobs (st : ExportStatus) (l : List ExportJob) : List ExportJob :=
  l.map (fun k =>
    if decide (k.status = ExportStatus.rendering) then { k with status := st } else k)

/-- Modelled from the spec: a successful export transitions the active
job to `complete` and records the output file at its output path. -/
def Engine.finishExport (s : Engine) : Engine :=
  match s.jobs.find? (fun j => decide (j.status = ExportStatus.rendering)) with
  | none => s
  | some j =>
      { s with jobs := settleJobs ExportStatus.complete s.jobs,
               outputs := j.outputPath :: s.outputs }

/-- Modelled from the spec: a failing export transitions the active job
to `failed`, surfaces the error, and leaves no partial output file. -/
def Engine.failExport (s : Engine) (err : String) : Engine :=
  match s.jobs.find? (fun j => decide (j.status = ExportStatus.rendering)) with
  | none => s
  | some j =>
      { s with jobs := settleJobs ExportStatus.failed s.jobs,
               outputs := s.outputs.filter (fun p => !(decide (p = j.outputPath))),
               error := some err }

/-- Modelled from the spec: cancelling during `rendering` transitions the
job to `cancelled` and cleans up, leaving no output file at its output
path; when no job is `rendering` (the job is already terminal) cancel is
a no-op. -/
def Engine.cancelExport (s : Engine) : Engine :=
  match s.jobs.find? (fun j => decide (j.status = ExportStatus.rendering)) with
  | none => s
  | some j =>
      { s with jobs := settleJobs ExportStatus.cancelled s.jobs,
               outputs := s.outputs.filter (fun p => !(decide (p = j.outputPath))) }

/-- Modelled from the spec: setting a new error overwrites the single
error slot. -/
def Engine.setError (s : Engine) (e : String) : Engine :=
  { s with error := some e }

/-- Modelled from the spec: `dismissError()` clears the single error
slot and does nothing else. -/
def Engine.dismissError (s : Engine) : Engine :=
  { s with error := none }

/-- One UI-facing action step of the engine. -/
inductive Step : Engine → Engine → Prop where
  | addClips (s : Engine) (ps : List String) :
      Step s { s with store := s.store.addClips ps }
  | removeClip (s : Engine) (p : String) :
      Step s { s with store := s.store.removeClip p }
  | setOrder (s : Engine) (ids : List String) :
      Step s { s with store := s.store.setOrder ids }
  | setClipTrim (s : Engine) (p : String) (tin tout : ℚ) :
      Step s { s with store := s.store.setClipTrim p tin tout }
  | setTransition (s : Engine) (d : ℚ) :
      Step s { s with transition := setTransitionDuration s.transition d }
  | setAudio (s : Engine) (v : ℚ) :
      Step s { s with audio := setMusicVolume s.audio v }
  | startExport (s : Engine) (out : String) : Step s (s.startExport out)
  | finishExport (s : Engine) : Step s s.finishExport
  | failExport (s : Engine) (err : String) : Step s (s.failExport err)
  | cancelExport (s : Engine) : Step s s.cancelExport
  | setError (s : Engine) (e : String) : Step s (s.setError e)
  | dismissError (s : Engine) : Step s s.dismissError

/-- Engine states reachable from the initial state by UI actions. -/
inductive Reachable : Engine → Prop where
  | init : Reachable Engine.init
  | step {s t : Engine} : Reachable s → Step s t → Reachable t

/-- The number of currently `rendering` export jobs. -/
def renderingCount (s : Engine) : Nat :=
  s.jobs.countP (fun j => decide (j.status = ExportStatus.rendering))

/-! ## Shared helper lemmas and demo values -/

lemma clampQ_bounds (lo hi v : ℚ) (h : lo ≤ hi) :
    lo ≤ clampQ lo hi v ∧ clampQ lo hi v ≤ hi := by
  unfold clampQ
  split_ifs with h1 h2 <;> constructor <;> linarith

lemma clampQ_of_mem (lo hi v : ℚ) (h1 : lo ≤ v) (h2 : v ≤ hi) :
    clampQ lo hi v = v := by
  unfold clampQ
  split_ifs <;> linarith

/-- A demo file path used to exercise the definitions. -/
def pathA : String := "A.mp4"

/-- A second demo file path. -/
def pathB : String := "B.mp4"

/-- A demo file path with an unsupported extension. -/
def pathTxt : String := "notes.txt"

/-- A demo output path. -/
def pathOut : String := "out.mp4"

/-- A demo clip of duration 10 used by the trim witness. -/
def demoClip : Clip :=
  { path := pathA, duration := 10, trimIn := 2, trimOut := 5,
    state := ClipState.ready, sprite := none }

/-- A demo store holding `demoClip`. -/
def demoStore : ClipStore := { clips := [demoClip], order := [pathA] }

/-! ## Claim theorems -/

/-- Claim C9: every transition/audio configuration accepted through the
configuration surface satisfies transition duration in `[0.5, 5]` and
music volume in `[0, 100]`; out-of-range values are clamped (in-range
values pass through unchanged) rather than causing a hard failure. -/
theorem config_clamped_bounds (t : TransitionConfig) (a : AudioConfig) (d v : ℚ) :
    TRANSITION_DURATION_MIN ≤ (setTransitionDuration t d).duration ∧
    (setTransitionDuration t d).duration ≤ TRANSITION_DURATION_MAX ∧
    MUSIC_VOLUME_MIN ≤ (setMusicVolume a v).musicVolume ∧
    (setMusicVolume a v).musicVolume ≤ MUSIC_VOLUME_MAX ∧
    (TRANSITION_DURATION_MIN ≤ d → d ≤ TRANSITION_DURATION_MAX →
      (setTransitionDuration t d).duration = d) ∧
    (MUSIC_VOLUME_MIN ≤ v → v ≤ MUSIC_VOLUME_MAX →
      (setMusicVolume a v).musicVolume = v) := by
  have ht : TRANSITION_DURATION_MIN ≤ TRANSITION_DURATION_MAX := by
    unfold TRANSITION_DURATION_MIN TRANSITION_DURATION_MAX
    norm_num
  have hv : MUSIC_VOLUME_MIN ≤ MUSIC_VOLUME_MAX := by
    unfold MUSIC_VOLUME_MIN MUSIC_VOLUME_MAX
    norm_num
  have h1 := clampQ_bounds TRANSITION_DURATION_MIN TRANSITION_DURATION_MAX d ht
  have h2 := clampQ_bounds MUSIC_VOLUME_MIN MUSIC_VOLUME_MAX v hv
  refine ⟨h1.1, h1.2, h2.1, h2.2, ?_, ?_⟩
  · intro hlo hhi
    exact clampQ_of_mem _ _ _ hlo hhi
  · intro hlo hhi
    exact clampQ_of_mem _ _ _ hlo hhi

/-- Witness for C9 at a concrete configuration and inputs. -/
theorem config_clamped_bounds_witness :
    TRANSITION_DURATION_MIN ≤
      (setTransitionDuration Engine.init.transition 99).duration ∧
    (setMusicVolume Engine.init.audio 42).musicVolume = 42 := by
  have h := config_clamped_bounds Engine.init.transition Engine.init.audio 99 42
  exact ⟨h.1, h.2.2.2.2.2 (by norm_num [MUSIC_VOLUME_MIN]) (by norm_num [MUSIC_VOLUME_MAX])⟩

/-- Claim C3: for every input `(in, out)` and every clip of positive
duration, after `setClipTrim` the stored trim range of that clip
satisfies `0 ≤ in < out ≤ duration`: out-of-range input is clamped to
valid bounds rather than rejected. -/
theorem setClipTrim_clamps (s : ClipStore) (p : String) (tin tout : ℚ)
    (c : Clip) (hc : c ∈ (s.setClipTrim p tin tout).clips)
    (hp : c.path = p) (hd : 0 < c.duration) :
    0 ≤ c.trimIn ∧ c.trimIn < c.trimOut ∧ c.trimOut ≤ c.duration := by
  unfold ClipStore.setClipTrim at hc
  simp only [List.mem_map] at hc
  obtain ⟨c0, hmem, hc0⟩ := hc
  by_cases hpath : c0.path = p
  · simp [hpath] at hc0
    by_cases hio : clampQ 0 c0.duration tin < clampQ 0 c0.duration tout
    · rw [if_pos hio] at hc0
      subst hc0
      dsimp only at hd ⊢
      have hbounds := clampQ_bounds 0 c0.duration tin (le_of_lt hd)
      have hbounds2 := clampQ_bounds 0 c0.duration tout (le_of_lt hd)
      exact ⟨hbounds.1, hio, hbounds2.2⟩
    · rw [if_neg hio] at hc0
      subst hc0
      dsimp only at hd ⊢
      exact ⟨le_refl 0, hd, le_refl _⟩
  · simp [hpath] at hc0
    subst hc0
    exact absurd hp hpath

/-- Witness for C3: trimming the demo clip with the out-of-range request
`(-5, 99)` stores the clamped range `(0, 10)`, which satisfies the
invariant. -/
theorem setClipTrim_clamps_witness :
    0 ≤ ({ demoClip with trimIn := 0, trimOut := 10 } : Clip).trimIn ∧
    ({ demoClip with trimIn := 0, trimOut := 10 } : Clip).trimIn <
      ({ demoClip with trimIn := 0, trimOut := 10 } : Clip).trimOut ∧
    ({ demoClip with trimIn := 0, trimOut := 10 } : Clip).trimOut ≤
      ({ demoClip with trimIn := 0, trimOut := 10 } : Clip).duration :=
  setClipTrim_clamps demoStore pathA (-5) 99
    { demoClip with trimIn := 0, trimOut := 10 }
    (by decide) (by decide) (by decide)

/-- Claim C10: `sanitizeValue` returns a defined `min` when the value is
below it, a defined `max` when the value is above it (and not below a
defined `min`, which is checked first), and the value unchanged
otherwise; whenever both bounds are defined with `min ≤ max` the result
lies in `[min, max]` and `sanitizeValue` is idempotent. -/
theorem sanitizeValue_spec (v : ℚ) (m : Option FieldMetadata) :
    (∀ md lo, m = some md → md.min = some lo → v < lo →
      sanitizeValue v m = lo) ∧
    (∀ md hi, m = some md → md.max = some hi → hi < v →
      (∀ lo, md.min = some lo → lo ≤ v) → sanitizeValue v m = hi) ∧
    (m = none → sanitizeValue v m = v) ∧
    (∀ md, m = some md →
      (∀ lo, md.min = some lo → lo ≤ v) →
      (∀ hi, md.max = some hi → v ≤ hi) → sanitizeValue v m = v) ∧
    (∀ md lo hi, m = some md → md.min = some lo → md.max = some hi → lo ≤ hi →
      lo ≤ sanitizeValue v m ∧ sanitizeValue v m ≤ hi) ∧
    (∀ md, m = some md →
      (∀ lo hi, md.min = some lo → md.max = some hi → lo ≤ hi) →
      sanitizeValue (sanitizeValue v m) m = sanitizeValue v m) ∧
    (m = none → sanitizeValue (sanitizeValue v m) m = sanitizeValue v m) := by
  refine ⟨?_, ?_, ?_, ?_, ?_, ?_, ?_⟩
  · intro md lo hm hlo hv
    subst hm
    obtain ⟨mi, ma⟩ := md
    obtain rfl : mi = some lo := hlo
    simp only [sanitizeValue]
    rw [if_pos hv]
  · intro md hi hm hhi hv hmin
    subst hm
    obtain ⟨mi, ma⟩ := md
    obtain rfl : ma = some hi := hhi
    match mi, hmin with
    | none, _ =>
      simp only [sanitizeValue]
      rw [if_pos hv]
    | some lo, hmin =>
      have hlo : lo ≤ v := hmin lo rfl
      simp only [sanitizeValue]
      rw [if_neg (by linarith), if_pos hv]
  · intro hm
    subst hm
    rfl
  · intro md hm hmin hmax
    subst hm
    obtain ⟨mi, ma⟩ := md
    match mi, ma, hmin, hmax with
    | none, none, _, _ => rfl
    | none, some hi, _, hmax =>
      simp only [sanitizeValue]
      rw [if_neg (by have := hmax hi rfl; linarith)]
    | some lo, none, hmin, _ =>
      simp only [sanitizeValue]
      rw [if_neg (by have := hmin lo rfl; linarith)]
    | some lo, some hi, hmin, hmax =>
      simp only [sanitizeValue]
      rw [if_neg (by have := hmin lo rfl; linarith),
          if_neg (by have := hmax hi rfl; linarith)]
  · intro md lo hi hm hlo hhi hle
    subst hm
    obtain ⟨mi, ma⟩ := md
    obtain rfl : mi = some lo := hlo
    obtain rfl : ma = some hi := hhi
    simp only [sanitizeValue]
    split_ifs <;> constructor <;> linarith
  · intro md hm hle
    subst hm
    obtain ⟨mi, ma⟩ := md
    match mi, ma, hle with
    | none, none, _ => rfl
    | none, some hi, _ =>
      simp only [sanitizeValue]
      split_ifs <;> rfl
    | some lo, none, _ =>
      simp only [sanitizeValue]
      split_ifs <;> rfl
    | some lo, some hi, hle =>
      have h : lo ≤ hi := hle lo hi rfl rfl
      simp only [sanitizeValue]
      split_ifs <;> first | rfl | linarith
  · intro hm
    subst hm
    rfl

/-- Witness for C10 at concrete inputs: metadata `{min := 0, max := 10}`
clamps `-3` to the minimum, and re-sanitizing is a no-op. -/
theorem sanitizeValue_spec_witness :
    sanitizeValue (-3) (some { min := some 0, max := some 10 }) = 0 ∧
    sanitizeValue
      (sanitizeValue (-3) (some { min := some 0, max := some 10 }))
      (some { min := some 0, max := some 10 }) =
      sanitizeValue (-3) (some { min := some 0, max := some 10 }) := by
  have h := sanitizeValue_spec (-3) (some { min := some 0, max := some 10 })
  refine ⟨h.1 _ 0 rfl rfl (by norm_num), ?_⟩
  exact h.2.2.2.2.2.1 _ rfl (by intro lo hi hlo hhi; cases hlo; cases hhi; norm_num)

/-- Claim C4: ingest accepts exactly the extensions mp4/mov/mkv: dropped
paths with an unsupported extension are silently filtered out, and
`addClips` is invoked only with, and with all of, the supported paths
(no call at all when none is supported). -/
theorem onDrop_supported_exactly (files : List String) :
    (∀ p, p ∈ onDropFilter files → p ∈ files ∧ parseExt p ∈ dropExtensions) ∧
    (∀ p, p ∈ files → parseExt p ∈ dropExtensions → p ∈ onDropFilter files) ∧
    (onDropAddClipsArg files = none →
      ∀ p, p ∈ files → parseExt p ∉ dropExtensions) ∧
    (∀ l, onDropAddClipsArg files = some l → l = onDropFilter files) ∧
    dropExtensions = [ ".mp4", ".mov", ".mkv" ] := by
  have hmem : ∀ p, p ∈ onDropFilter files ↔
      p ∈ files ∧ parseExt p ∈ dropExtensions := by
    intro p
    unfold onDropFilter
    rw [List.mem_filter]
    simp
  refine ⟨fun p hp => (hmem p).1 hp, fun p hp hs => (hmem p).2 ⟨hp, hs⟩, ?_, ?_, by decide⟩
  · intro hnone p hp hs
    unfold onDropAddClipsArg at hnone
    by_cases hemp : (onDropFilter files).isEmpty
    · have : p ∈ onDropFilter files := (hmem p).2 ⟨hp, hs⟩
      rw [List.isEmpty_iff] at hemp
      rw [hemp] at this
      exact absurd this (List.not_mem_nil p)
    · rw [if_neg hemp] at hnone
      exact absurd hnone (Option.some_ne_none _)
  · intro l hl
    unfold onDropAddClipsArg at hl
    by_cases hemp : (onDropFilter files).isEmpty
    · rw [if_pos hemp] at hl
      exact absurd hl.symm (Option.some_ne_none _)
    · rw [if_neg hemp] at hl
      exact (Option.some.injEq _ _ ▸ hl).symm

/-- Witness for C4: among the demo files, the mp4 is kept and the txt is
dropped. -/
theorem onDrop_supported_exactly_witness :
    pathA ∈ onDropFilter [ pathA, pathTxt ] ∧
    (pathTxt ∈ onDropFilter [ pathA, pathTxt ] → False) := by
  have h := onDrop_supported_exactly [ pathA, pathTxt ]
  constructor
  · exact h.2.1 pathA (by decide) (by decide)
  · intro hmem
    have := (h.1 pathTxt hmem).2
    revert this
    decide

/-- A demo sprite-sheet reference. -/
def spriteA : String := "sprite-A.png"

/-- Demo clip A: 5 seconds, untrimmed, ready. -/
def clipA5 : Clip :=
  { path := pathA, duration := 5, trimIn := 0, trimOut := 5,
    state := ClipState.ready, sprite := some spriteA }

/-- Demo clip B: 3 seconds, untrimmed, ready. -/
def clipB3 : Clip :=
  { path := pathB, duration := 3, trimIn := 0, trimOut := 3,
    state := ClipState.ready, sprite := none }

/-- Demo audio config: disabled. -/
def audioOff : AudioConfig :=
  { musicEnabled := false, musicPath := "", musicVolume := 50 }

/-- Demo audio config: enabled at volume 50. -/
def audioOn50 : AudioConfig :=
  { musicEnabled := true, musicPath := "music.mp3", musicVolume := 50 }

lemma timelineDuration_cons2 (c c2 : Clip) (rest : List Clip) (d : ℚ) :
    timelineDuration (composeSegments (c :: c2 :: rest) d) =
      effectiveLength c - d + timelineDuration (composeSegments (c2 :: rest) d) := by
  simp only [composeSegments, timelineDuration, List.map_cons, List.sum_cons,
    segmentDuration]
  ring

lemma composed_duration_formula (clips : List Clip) (d : ℚ) (h : clips ≠ []) :
    timelineDuration (composeSegments clips d) =
      (clips.map effectiveLength).sum - ((clips.length : ℚ) - 1) * d := by
  induction clips with
  | nil => exact absurd rfl h
  | cons c rest ih =>
    cases rest with
    | nil =>
      simp only [composeSegments, timelineDuration, List.map_cons, List.map_nil,
        List.sum_cons, List.sum_nil, segmentDuration, List.length_cons,
        List.length_nil]
      push_cast
      ring
    | cons c2 rest2 =>
      rw [timelineDuration_cons2, ih (by simp)]
      simp only [List.map_cons, List.sum_cons, List.length_cons]
      push_cast
      ring

/-- Claim C2: with N ready clips and transition duration D the composed
output duration equals the sum of the clips' effective lengths minus
(N-1)×D (the fixed overlap policy), for N in {1,2,3}; the audio stage
never changes the video length; in particular clips of 5s and 3s with a
1s crossfade give a 7s output whether audio is off or on at volume 50;
and for N=1 the compositor is skipped and the single clip passes through
unchanged. -/
theorem composed_duration_policy :
    (∀ (clips : List Clip) (d : ℚ) (a : AudioConfig),
      clips.length = 1 ∨ clips.length = 2 ∨ clips.length = 3 →
      outputDuration clips d a =
        (clips.map effectiveLength).sum - ((clips.length : ℚ) - 1) * d) ∧
    (∀ (clips : List Clip) (d : ℚ) (a : AudioConfig),
      outputDuration clips d a = outputDuration clips d audioOff) ∧
    (∀ (c : Clip) (d : ℚ), composeSegments [ c ] d = [ Segment.clip c ]) ∧
    (∀ (c : Clip) (d : ℚ) (a : AudioConfig),
      outputDuration [ c ] d a = effectiveLength c) ∧
    outputDuration [ clipA5, clipB3 ] 1 audioOff = 7 ∧
    outputDuration [ clipA5, clipB3 ] 1 audioOn50 = 7 := by
  have hout : ∀ (clips : List Clip) (d : ℚ) (a : AudioConfig),
      outputDuration clips d a = timelineDuration (composeSegments clips d) := by
    intro clips d a
    rfl
  refine ⟨?_, ?_, ?_, ?_, ?_, ?_⟩
  · intro clips d a hn
    rw [hout]
    refine composed_duration_formula clips d (fun hnil => ?_)
    subst hnil
    rcases hn with h | h | h <;> simp at h
  · intro clips d a
    rw [hout, hout]
  · intro c d
    rfl
  · intro c d a
    rw [hout]
    simp [composeSegments, timelineDuration, segmentDuration]
  · norm_num [hout, timelineDuration, composeSegments, segmentDuration,
      effectiveLength, clipA5, clipB3]
  · norm_num [hout, timelineDuration, composeSegments, segmentDuration,
      effectiveLength, clipA5, clipB3]

/-- Witness for C2: the duration formula applied to the concrete
two-clip timeline (N=2, D=1). -/
theorem composed_duration_policy_witness :
    outputDuration [ clipA5, clipB3 ] 1 audioOff =
      ([ clipA5, clipB3 ].map effectiveLength).sum -
        ((([ clipA5, clipB3 ].length : ℕ) : ℚ) - 1) * 1 :=
  composed_duration_policy.1 [ clipA5, clipB3 ] 1 audioOff (Or.inr (Or.inl rfl))

/-- Number of Clip entities stored for a given path. -/
def pathCount (s : ClipStore) (p : String) : Nat :=
  s.clips.countP (fun c => decide (c.path = p))

lemma addClip_of_present (s : ClipStore) (p : String)
    (h : s.clips.any (fun c => decide (c.path = p)) = true) :
    s.addClip p = s := by
  unfold ClipStore.addClip
  rw [if_pos h]

lemma addClip_present (s : ClipStore) (p : String) :
    (s.addClip p).clips.any (fun c => decide (c.path = p)) = true := by
  unfold ClipStore.addClip
  by_cases h : s.clips.any (fun c => decide (c.path = p)) = true
  · rw [if_pos h]
    exact h
  · rw [if_neg h]
    simp [newClip]

/-- Claim C5: adding the same path twice — in one `addClips` call or in
two successive calls — leaves the store exactly as if the path had been
added once, and the store then holds exactly one Clip entity for that
path. -/
theorem addClips_duplicate_ignored (s : ClipStore) (p : String) :
    s.addClips [ p, p ] = s.addClips [ p ] ∧
    (s.addClips [ p ]).addClips [ p ] = s.addClips [ p ] ∧
    (pathCount s p ≤ 1 → pathCount (s.addClips [ p ]) p = 1) := by
  have h1 : s.addClips [ p ] = s.addClip p := rfl
  have hno : (s.addClip p).addClip p = s.addClip p :=
    addClip_of_present _ _ (addClip_present s p)
  refine ⟨hno, hno, ?_⟩
  intro hle
  rw [h1]
  unfold pathCount at hle ⊢
  by_cases h : s.clips.any (fun c => decide (c.path = p)) = true
  · rw [addClip_of_present s p h]
    rw [List.any_eq_true] at h
    obtain ⟨c, hc, hcp⟩ := h
    have hpos : 0 < s.clips.countP (fun c => decide (c.path = p)) :=
      List.countP_pos_iff.mpr ⟨c, hc, hcp⟩
    omega
  · unfold ClipStore.addClip
    rw [if_neg h]
    have hzero : s.clips.countP (fun c => decide (c.path = p)) = 0 := by
      rw [List.countP_eq_zero]
      intro c hc hcp
      exact h (List.any_eq_true.mpr ⟨c, hc, hcp⟩)
    simp [List.countP_append, hzero, List.countP_cons, newClip]

/-- Witness for C5: adding the demo path to the single-clip demo store
again keeps exactly one entity for it. -/
theorem addClips_duplicate_ignored_witness :
    demoStore.addClips [ pathA, pathA ] = demoStore.addClips [ pathA ] ∧
    pathCount (demoStore.addClips [ pathA ]) pathA = 1 := by
  have h := addClips_duplicate_ignored demoStore pathA
  exact ⟨h.1, h.2.2 (by decide)⟩

/-- Demo store with two ordered clips. -/
def demoStore2 : ClipStore :=
  { clips := [ clipA5, clipB3 ], order := [ pathA, pathB ] }

/-- Claim C6: `setOrder` applied to a permutation of the stored clip
identities installs exactly that ordering while leaving every clip —
trim range, load state, sprite reference — untouched (so no sprite
re-generation can be triggered); ids not present in the store are
filtered out. -/
theorem setOrder_permutation (s : ClipStore) (ids : List String)
    (hperm : ids.Perm (s.clips.map Clip.path)) :
    (s.setOrder ids).order = ids ∧
    (s.setOrder ids).clips = s.clips ∧
    (∀ ids2 : List String,
      (s.setOrder ids2).order =
        ids2.filter (fun id => decide (id ∈ s.clips.map Clip.path)) ∧
      (s.setOrder ids2).clips = s.clips) := by
  refine ⟨?_, rfl, fun ids2 => ⟨rfl, rfl⟩⟩
  show ids.filter (fun id => decide (id ∈ s.clips.map Clip.path)) = ids
  rw [List.filter_eq_self]
  intro a ha
  exact decide_eq_true (hperm.subset ha)

/-- Witness for C6: swapping the two demo clips installs the swapped
order and leaves the clips untouched. -/
theorem setOrder_permutation_witness :
    (demoStore2.setOrder [ pathB, pathA ]).order = [ pathB, pathA ] ∧
    (demoStore2.setOrder [ pathB, pathA ]).clips = demoStore2.clips := by
  have h := setOrder_permutation demoStore2 [ pathB, pathA ] (by decide)
  exact ⟨h.1, h.2.1⟩

lemma settleJobs_not_rendering {st : ExportStatus}
    (hst : st ≠ ExportStatus.rendering) (l : List ExportJob) :
    ∀ j ∈ settleJobs st l, j.status ≠ ExportStatus.rendering := by
  intro j hj
  unfold settleJobs at hj
  rw [List.mem_map] at hj
  obtain ⟨k, hk, hkj⟩ := hj
  by_cases h : k.status = ExportStatus.rendering
  · simp only [h, decide_eq_true_eq, if_pos rfl] at hkj
    rw [← hkj]
    exact hst
  · simp [h] at hkj
    rw [← hkj]
    exact h

lemma countP_settleJobs {st : ExportStatus}
    (hst : st ≠ ExportStatus.rendering) (l : List ExportJob) :
    (settleJobs st l).countP (fun j => decide (j.status = ExportStatus.rendering)) = 0 := by
  rw [List.countP_eq_zero]
  intro j hj
  simpa using settleJobs_not_rendering hst l j hj

lemma find?_settleJobs {st : ExportStatus}
    (hst : st ≠ ExportStatus.rendering) (l : List ExportJob) :
    (settleJobs st l).find?
      (fun j => decide (j.status = ExportStatus.rendering)) = none := by
  rw [List.find?_eq_none]
  intro j hj
  simpa using settleJobs_not_rendering hst l j hj

lemma startExport_rejected (s : Engine) (out : String)
    (h : renderingCount s ≠ 0) : s.startExport out = s := by
  unfold Engine.startExport
  rw [if_pos ?hany]
  case hany =>
    unfold renderingCount at h
    have hpos : 0 < s.jobs.countP (fun j => decide (j.status = ExportStatus.rendering)) :=
      Nat.pos_of_ne_zero h
    obtain ⟨j, hj, hpred⟩ := List.countP_pos_iff.mp hpos
    exact List.any_eq_true.mpr ⟨j, hj, hpred⟩

lemma renderingCount_le_one_step (s t : Engine) (hle : renderingCount s ≤ 1)
    (hstep : Step s t) : renderingCount t ≤ 1 := by
  cases hstep
  case addClips ps => exact hle
  case removeClip p => exact hle
  case setOrder ids => exact hle
  case setClipTrim p tin tout => exact hle
  case setTransition d => exact hle
  case setAudio v => exact hle
  case setError e => exact hle
  case dismissError => exact hle
  case startExport out =>
    unfold Engine.startExport
    by_cases h : s.jobs.any (fun j => decide (j.status = ExportStatus.rendering)) = true
    · rw [if_pos h]
      exact hle
    · rw [if_neg h]
      have hzero : s.jobs.countP
          (fun j => decide (j.status = ExportStatus.rendering)) = 0 := by
        rw [List.countP_eq_zero]
        intro j hj hpred
        exact h (List.any_eq_true.mpr ⟨j, hj, hpred⟩)
      unfold renderingCount
      simp [List.countP_cons, hzero]
  case finishExport =>
    unfold Engine.finishExport
    cases hfind : s.jobs.find? (fun j => decide (j.status = ExportStatus.rendering)) with
    | none => exact hle
    | some j =>
      unfold renderingCount
      rw [countP_settleJobs (by simp) s.jobs]
      omega
  case failExport err =>
    unfold Engine.failExport
    cases hfind : s.jobs.find? (fun j => decide (j.status = ExportStatus.rendering)) with
    | none => exact hle
    | some j =>
      unfold renderingCount
      rw [countP_settleJobs (by simp) s.jobs]
      omega
  case cancelExport =>
    unfold Engine.cancelExport
    cases hfind : s.jobs.find? (fun j => decide (j.status = ExportStatus.rendering)) with
    | none => exact hle
    | some j =>
      unfold renderingCount
      rw [countP_settleJobs (by simp) s.jobs]
      omega

/-- Claim C1: in every reachable engine state at most one Export Job is
`rendering`, and while one is `rendering` a second `export` request is
rejected outright (the state, and hence the set of writers to any output
path, is unchanged). -/
theorem export_mutual_exclusion (s : Engine) (hs : Reachable s) :
    renderingCount s ≤ 1 ∧
    (∀ out, renderingCount s ≠ 0 → s.startExport out = s) := by
  refine ⟨?_, fun out h => startExport_rejected s out h⟩
  induction hs with
  | init => decide
  | step hr hstep ih => exact renderingCount_le_one_step _ _ ih hstep

/-- The engine right after starting one export from the initial state. -/
def demoEngine1 : Engine := Engine.init.startExport pathOut

/-- Witness for C1: with one export running, a second request to the
same output path is rejected and there is still at most one active job. -/
theorem export_mutual_exclusion_witness :
    renderingCount demoEngine1 ≤ 1 ∧
    demoEngine1.startExport pathOut = demoEngine1 := by
  have h := export_mutual_exclusion demoEngine1
    (Reachable.step Reachable.init (Step.startExport Engine.init pathOut))
  exact ⟨h.1, h.2 pathOut (by decide)⟩

lemma cancelExport_eq_none (s : Engine)
    (hfind : s.jobs.find?
      (fun j => decide (j.status = ExportStatus.rendering)) = none) :
    s.cancelExport = s := by
  unfold Engine.cancelExport
  rw [hfind]

lemma cancelExport_eq_some (s : Engine) (j : ExportJob)
    (hfind : s.jobs.find?
      (fun j => decide (j.status = ExportStatus.rendering)) = some j) :
    s.cancelExport =
      { s with jobs := settleJobs ExportStatus.cancelled s.jobs,
               outputs := s.outputs.filter (fun p => !(decide (p = j.outputPath))) } := by
  unfold Engine.cancelExport
  rw [hfind]

/-- Claim C7: cancelling while a job is `rendering` moves it to
`cancelled`, leaves no output file at its output path and leaves the
Clip Store untouched; cancelling when no job is `rendering` (the job is
already terminal) is a no-op, and cancel is idempotent. -/
theorem cancelExport_spec (s : Engine) :
    (∀ j, s.jobs.find?
        (fun j => decide (j.status = ExportStatus.rendering)) = some j →
      s.cancelExport.store = s.store ∧
      j.outputPath ∉ s.cancelExport.outputs ∧
      { j with status := ExportStatus.cancelled } ∈ s.cancelExport.jobs ∧
      ∀ k ∈ s.cancelExport.jobs, k.status ≠ ExportStatus.rendering) ∧
    (s.jobs.find?
        (fun j => decide (j.status = ExportStatus.rendering)) = none →
      s.cancelExport = s) ∧
    s.cancelExport.cancelExport = s.cancelExport := by
  refine ⟨?_, ?_, ?_⟩
  · intro j hfind
    have hj : j ∈ s.jobs := List.mem_of_find?_eq_some hfind
    have hjr : j.status = ExportStatus.rendering := by
      have := List.find?_some hfind
      simpa using this
    unfold Engine.cancelExport
    rw [hfind]
    refine ⟨rfl, ?_, ?_, ?_⟩
    · intro hmem
      rw [List.mem_filter] at hmem
      simp at hmem
    · apply List.mem_map.mpr
      refine ⟨j, hj, ?_⟩
      rw [if_pos (by simpa using hjr)]
    · exact settleJobs_not_rendering (by simp) s.jobs
  · exact cancelExport_eq_none s
  · cases hfind : s.jobs.find?
        (fun j => decide (j.status = ExportStatus.rendering)) with
    | none =>
      rw [cancelExport_eq_none s hfind, cancelExport_eq_none s hfind]
    | some j =>
      have hjobs : s.cancelExport.jobs = settleJobs ExportStatus.cancelled s.jobs := by
        rw [cancelExport_eq_some s j hfind]
      apply cancelExport_eq_none
      rw [hjobs]
      exact find?_settleJobs (by simp) s.jobs

/-- The demo export job created by `demoEngine1`. -/
def demoJob : ExportJob :=
  { status := ExportStatus.rendering, progress := 0, outputPath := pathOut }

/-- Witness for C7: cancelling the running demo export cancels the job,
leaves no output file at its path and keeps the (empty) store. -/
theorem cancelExport_spec_witness :
    demoEngine1.cancelExport.store = demoEngine1.store ∧
    demoJob.outputPath ∉ demoEngine1.cancelExport.outputs ∧
    demoEngine1.cancelExport.cancelExport = demoEngine1.cancelExport := by
  have h := cancelExport_spec demoEngine1
  have hfind := h.1 demoJob (by decide)
  exact ⟨hfind.1, hfind.2.1, h.2.2⟩

/-- Claim C8: the error surface is a single slot: at most one error
string is outstanding at a time, setting a new error overwrites the
previous one, and `dismissError` clears the slot without touching the
clip store, the jobs or the output files. -/
theorem error_single_slot (s : Engine) (e enew : String) :
    ((s.setError e).setError enew).error = some enew ∧
    (s.setError e).jobs = s.jobs ∧
    (s.setError e).store = s.store ∧
    s.dismissError.error = none ∧
    s.dismissError.jobs = s.jobs ∧
    s.dismissError.store = s.store ∧
    s.dismissError.outputs = s.outputs ∧
    (∀ e1 e2 : String, s.error = some e1 → s.error = some e2 → e1 = e2) := by
  refine ⟨rfl, rfl, rfl, rfl, rfl, rfl, rfl, ?_⟩
  intro e1 e2 h1 h2
  rw [h1] at h2
  exact Option.some.inj h2

/-- Witness for C8: overwriting then dismissing on the running demo
engine. -/
theorem error_single_slot_witness :
    ((demoEngine1.setError pathA).setError pathB).error = some pathB ∧
    demoEngine1.dismissError.jobs = demoEngine1.jobs := by
  have h := error_single_slot demoEngine1 pathA pathB
  exact ⟨h.1, h.2.2.2.2.1⟩

end Highlighter
